import Mathlib

/-!
Verification of the in-memory dashboard store of the demo server
(`server/main.go` of the dashboards example).  The Go handlers are embedded
shallowly: the global slice `dashboards` becomes an explicit `List Dashboard`
threaded through each operation, a JSON body that fails to decode becomes
`none`, and each handler returns its HTTP outcome together with the new
store state.  A Go runtime panic from a negative slice index is modelled by
`Option`: `none` marks an out-of-bounds access.
-/

namespace DashStore

/-- The `models.Dashboard` struct: id, name, description, project. -/
structure Dashboard where
  id : String
  name : String
  description : String
  project : String
deriving Repr, DecidableEq

/-- The `models.DashboardList` struct returned by the list handler.
`next` is a Go `int` whose zero value means "no further page". -/
structure DashboardList where
  dashboards : List Dashboard
  next : Int
deriving Repr, DecidableEq

/-- The 62-character alphabet used by `generateExternalID`. -/
def charset : List Char :=
  ("abcdefghijklmnopqrstuvwxyzABCDEFGHIJKLMNOPQRSTUVWXYZ0123456789").toList

/-- Embedding of `generateExternalID`: 8 characters, each `charset[rand.Int()%len(charset)]`.
The randomness source is passed in as the 8 draws `r 0 .. r 7` of
`rand.Int()` (non-negative, hence `Nat`). -/
def generateExternalID (r : Fin 8 → Nat) : String :=
  String.mk ((List.finRange 8).map fun i => charset.getD (r i % charset.length) 'a')

/-- Embedding of `lookupDashboard`: linear scan, first record whose `ID` matches. -/
def lookupDashboard (ds : List Dashboard) (externalID : String) : Option Dashboard :=
  match ds with
  | [] => none
  | d :: rest => if d.id = externalID then some d else lookupDashboard rest externalID

/-- HTTP outcome of a handler call (status codes 400/404/201/200/204). -/
inductive HandlerResult where
  | badRequest
  | notFound
  | created (d : Dashboard)
  | ok (d : Dashboard)
  | noContent
deriving Repr, DecidableEq

/-- Test for the 4xx outcomes (400 Bad Request, 404 Not Found). -/
def HandlerResult.isClientError : HandlerResult → Bool
  | .badRequest => true
  | .notFound => true
  | _ => false

/-- Embedding of `createDashboard`: decode the body (`none` = malformed JSON, 400), reject
an empty `Project` with 400, otherwise overwrite the `ID` with a fresh
`generateExternalID` and append the record to the end of the collection. -/
def createDashboard (body : Option Dashboard) (r : Fin 8 → Nat)
    (ds : List Dashboard) : HandlerResult × List Dashboard :=
  match body with
  | none => (.badRequest, ds)
  | some dash =>
    if dash.project = ("") then (.badRequest, ds)
    else
      let d : Dashboard := { dash with id := generateExternalID r }
      (.created d, ds ++ [d])

/-- Embedding of `getDashboard`: look up by id; 404 when absent, otherwise the record. -/
def getDashboard (externalID : String) (ds : List Dashboard) : HandlerResult :=
  match lookupDashboard ds externalID with
  | none => .notFound
  | some d => .ok d

/-- The in-place mutation `dashboard.Name = updated.Name;
dashboard.Description = updated.Description` applied to record `d`. -/
def applyUpdate (upd d : Dashboard) : Dashboard :=
  { d with name := upd.name, description := upd.description }

/-- Mutating the first record whose id matches, as the Go code does through
the pointer returned by `lookupDashboard`. -/
def updateFirst (eid : String) (upd : Dashboard) : List Dashboard → List Dashboard
  | [] => []
  | d :: rest =>
    if d.id = eid then applyUpdate upd d :: rest
    else d :: updateFirst eid upd rest

/-- Embedding of `updateDashboard`: decode the body (`none` = malformed JSON, 400), look up
the record (404 when absent), then overwrite its name and description in
place and echo the mutated record. -/
def updateDashboard (externalID : String) (body : Option Dashboard)
    (ds : List Dashboard) : HandlerResult × List Dashboard :=
  match body with
  | none => (.badRequest, ds)
  | some upd =>
    match lookupDashboard ds externalID with
    | none => (.notFound, ds)
    | some d => (.ok (applyUpdate upd d), updateFirst externalID upd ds)

/-- Deleting the first record whose id matches:
`dashboards = append(dashboards[:i], dashboards[i+1:]...)` then `break`. -/
def removeFirst (eid : String) : List Dashboard → List Dashboard
  | [] => []
  | d :: rest => if d.id = eid then rest else d :: removeFirst eid rest

/-- Embedding of `deleteDashboard`: look up the record (404 when absent), otherwise remove
the first record with that id and answer 204. -/
def deleteDashboard (externalID : String) (ds : List Dashboard) :
    HandlerResult × List Dashboard :=
  match lookupDashboard ds externalID with
  | none => (.notFound, ds)
  | some _ => (.noContent, removeFirst externalID ds)

/-- The page size constant `maxres` of `listDashboards`. -/
def maxres : Nat := 2

/-- Go slice indexing `dashboards[i]` with an `int` index: a negative index
panics (modelled as `none`); otherwise the element when in range. -/
def goIndex (ds : List Dashboard) (i : Int) : Option Dashboard :=
  if 0 ≤ i then ds[i.toNat]? else none

/-- The collection loop of `listDashboards`:
`for i := nextInt; i < nextInt+maxres; i++ { if i >= len { break }; append ds[i] }`.
The fuel argument counts the remaining iterations of the `maxres`-bounded
loop; `none` propagates a panic from an out-of-range index. -/
def listLoop : Nat → Int → List Dashboard → Option (List Dashboard)
  | 0, _, _ => some []
  | k + 1, i, ds =>
    if (ds.length : Int) ≤ i then some []
    else
      match goIndex ds i with
      | none => none
      | some d => (listLoop k (i + 1) ds).map fun rest => d :: rest

/-- Embedding of `listDashboards` for a cursor that parsed as the integer `nextInt`
(`0` when the `next` query parameter is absent): the page built by the loop,
and `Next = nextInt + maxres` when `nextInt + maxres < len(dashboards)`,
else the zero value. -/
def listDashboards (nextInt : Int) (ds : List Dashboard) : Option DashboardList :=
  (listLoop maxres nextInt ds).map fun page =>
    { dashboards := page
      next := if nextInt + (maxres : Int) < (ds.length : Int) then nextInt + (maxres : Int) else 0 }

/-- The pagination protocol of the spec: call `listDashboards` at the given
cursor, stop when `next` is the zero value, otherwise continue at the
returned cursor; the pages are concatenated in call order.  The fuel bounds
the number of calls; `none` marks fuel exhaustion or a panic. -/
def collectPages : Nat → Int → List Dashboard → Option (List Dashboard)
  | 0, _, _ => none
  | fuel + 1, cursor, ds =>
    match listDashboards cursor ds with
    | none => none
    | some page =>
      if page.next = 0 then some page.dashboards
      else
        match collectPages fuel page.next ds with
        | none => none
        | some rest => some (page.dashboards ++ rest)

/-- A character of the class `[a-zA-Z0-9]`. -/
def isAlphanum (c : Char) : Bool :=
  (('a') ≤ c && c ≤ ('z')) || (('A') ≤ c && c ≤ ('Z')) || (('0') ≤ c && c ≤ ('9'))

end DashStore
namespace DashStore

lemma listLoop_nat (k c : Nat) (ds : List Dashboard) :
    listLoop k (c : Int) ds = some ((ds.drop c).take k) := by
  induction k generalizing c with
  | zero => simp [listLoop]
  | succ k ih =>
    by_cases hlen : ds.length ≤ c
    · have h1 : ((ds.length : Int) ≤ (c : Int)) := by exact_mod_cast hlen
      simp [listLoop, h1, List.drop_eq_nil_of_le hlen]
    · push_neg at hlen
      have h1 : ¬ ((ds.length : Int) ≤ (c : Int)) := by exact_mod_cast not_le.mpr hlen
      have hg : goIndex ds (c : Int) = some (ds.get ⟨c, hlen⟩) := by
        simp [goIndex, hlen]
      have hcast : (c : Int) + 1 = ((c + 1 : Nat) : Int) := by push_cast; ring
      rw [listLoop]
      rw [if_neg h1, hg, hcast, ih (c + 1)]
      simp only [Option.map_some]
      rw [List.drop_eq_getElem_cons hlen, List.take_succ_cons]
      simp

lemma listDashboards_nat (c : Nat) (ds : List Dashboard) :
    listDashboards (c : Int) ds =
      some { dashboards := (ds.drop c).take 2,
             next := if (c : Int) + 2 < (ds.length : Int) then (c : Int) + 2 else 0 } := by
  simp [listDashboards, maxres, listLoop_nat]

lemma collectPages_eq (fuel c : Nat) (ds : List Dashboard)
    (h : ds.length - c < fuel) :
    collectPages fuel (c : Int) ds = some (ds.drop c) := by
  induction fuel generalizing c with
  | zero => omega
  | succ fuel ih =>
    rw [collectPages, listDashboards_nat]
    by_cases hc : c + 2 < ds.length
    · have hci : ((c : Int) + 2 < (ds.length : Int)) := by exact_mod_cast hc
      have hnz : ¬ (((c : Int) + 2) = 0) := by omega
      have hcast : (c : Int) + 2 = ((c + 2 : Nat) : Int) := by push_cast; ring
      rw [if_pos hci]
      simp only [hnz, if_neg, ite_false]
      rw [hcast, ih (c + 2) (by omega)]
      have : ds.drop (c + 2) = (ds.drop c).drop 2 := by rw [List.drop_drop]
      rw [this]
      simp [List.take_append_drop]
    · have hci : ¬ ((c : Int) + 2 < (ds.length : Int)) := by exact_mod_cast hc
      rw [if_neg hci]
      simp only [ite_true]
      have hlen2 : (ds.drop c).length ≤ 2 := by
        simp [List.length_drop]
        omega
      simp [List.take_of_length_le hlen2]

end DashStore
namespace DashStore

lemma lookup_append_right (l1 l2 : List Dashboard) (eid : String)
    (h : ∀ d ∈ l1, d.id ≠ eid) :
    lookupDashboard (l1 ++ l2) eid = lookupDashboard l2 eid := by
  induction l1 with
  | nil => rfl
  | cons a rest ih =>
    have ha : a.id ≠ eid := h a (by simp)
    simp only [List.cons_append, lookupDashboard, if_neg ha]
    exact ih fun d hd => h d (by simp [hd])

lemma found_decomp (eid : String) (upd : Dashboard) (ds : List Dashboard)
    (h : ∃ d ∈ ds, d.id = eid) :
    ∃ t1 d t2, ds = t1 ++ d :: t2 ∧ d.id = eid ∧ (∀ x ∈ t1, x.id ≠ eid) ∧
      lookupDashboard ds eid = some d ∧
      removeFirst eid ds = t1 ++ t2 ∧
      updateFirst eid upd ds = t1 ++ applyUpdate upd d :: t2 := by
  induction ds with
  | nil => simp at h
  | cons a rest ih =>
    by_cases ha : a.id = eid
    · exact ⟨[], a, rest, rfl, ha, by simp,
        by simp [lookupDashboard, ha],
        by simp [removeFirst, ha],
        by simp [updateFirst, ha]⟩
    · obtain ⟨d, hmem, hid⟩ := h
      rcases List.mem_cons.mp hmem with h1 | h1
      · exact absurd (h1 ▸ hid) ha
      · obtain ⟨t1, d', t2, hds, hid', hnot, hlook, hrem, hupd⟩ := ih ⟨d, h1, hid⟩
        refine ⟨a :: t1, d', t2, by simp [hds], hid', ?_, ?_, ?_, ?_⟩
        · intro x hx
          rcases List.mem_cons.mp hx with rfl | hx
          · exact ha
          · exact hnot x hx
        · simpa [lookupDashboard, ha] using hlook
        · simpa [removeFirst, ha] using hrem
        · simpa [updateFirst, ha] using hupd

lemma charset_length : charset.length = 62 := by decide

lemma charset_alphanum : ∀ c ∈ charset, isAlphanum c := by decide

lemma getD_mod_mem (n : Nat) : charset.getD (n % charset.length) 'a' ∈ charset := by
  have hlt : n % charset.length < charset.length :=
    Nat.mod_lt _ (by rw [charset_length]; omega)
  rw [List.getD_eq_getElem?_getD, List.getElem?_eq_getElem hlt]
  exact List.getElem_mem hlt

lemma generateExternalID_length (r : Fin 8 → Nat) :
    (generateExternalID r).length = 8 := by
  simp [generateExternalID, String.length]

lemma generateExternalID_alphanum (r : Fin 8 → Nat) :
    ∀ c ∈ (generateExternalID r).data, isAlphanum c := by
  intro c hc
  simp only [generateExternalID, String.mk, List.mem_map] at hc
  obtain ⟨i, _, rfl⟩ := hc
  exact charset_alphanum _ (getD_mod_mem (r i))

end DashStore
namespace DashStore

/-- Claim C1 (amended): for every create request whose decoded body has an empty
project (owner group) field, the create operation fails with a client
validation error (HTTP 400) and the stored collection is unchanged.  The code
validates `Project`, not `Name`; see `create_empty_name_succeeds`. -/
theorem createDashboard_empty_project (dash : Dashboard) (r : Fin 8 → Nat)
    (ds : List Dashboard) (h : dash.project = ("")) :
    (createDashboard (some dash) r ds).1 = .badRequest ∧
    ((createDashboard (some dash) r ds).1).isClientError = true ∧
    (createDashboard (some dash) r ds).2 = ds := by
  simp [createDashboard, h, HandlerResult.isClientError]

/-- Witness for C1: a concrete create with empty project is rejected and the
empty store stays empty. -/
theorem createDashboard_empty_project_witness :
    (createDashboard (some ⟨(""), ("n"), ("d"), ("")⟩) (fun _ => 0) []).1 = .badRequest ∧
    ((createDashboard (some ⟨(""), ("n"), ("d"), ("")⟩) (fun _ => 0) []).1).isClientError
      = true ∧
    (createDashboard (some ⟨(""), ("n"), ("d"), ("")⟩) (fun _ => 0) []).2 = [] :=
  createDashboard_empty_project ⟨(""), ("n"), ("d"), ("")⟩ (fun _ => 0) [] rfl

/-- Counterexample to C1 as stated: a create whose supplied name is empty but
whose project is non-empty succeeds (HTTP 201, not a client error) and grows
the collection from 0 to 1 records. -/
theorem create_empty_name_succeeds :
    (createDashboard (some ⟨(""), (""), ("d"), ("p")⟩) (fun _ => 0) []).1 =
      .created ⟨("aaaaaaaa"), (""), ("d"), ("p")⟩ ∧
    ((createDashboard (some ⟨(""), (""), ("d"), ("p")⟩) (fun _ => 0) []).1).isClientError
      = false ∧
    (createDashboard (some ⟨(""), (""), ("d"), ("p")⟩) (fun _ => 0) []).2.length = 1 := by
  decide

/-- Claim C2 (amended): for every stored record and every update request whose
body omits the name field — JSON decoding leaves the Go zero value, the empty
string — a successful update overwrites the stored record's name with the
empty string and sets its description to the supplied value; the name is not
preserved.  See `update_omitted_name_clears`. -/
theorem updateDashboard_omitted_name (eid desc : String) (ds : List Dashboard)
    (h : ∃ d ∈ ds, d.id = eid) :
    ∃ t1 d t2, ds = t1 ++ d :: t2 ∧ d.id = eid ∧
      updateDashboard eid (some ⟨(""), (""), desc, ("")⟩) ds =
        (.ok { d with name := (""), description := desc },
         t1 ++ { d with name := (""), description := desc } :: t2) := by
  obtain ⟨t1, d, t2, hds, hid, hnot, hlook, -, hupd⟩ :=
    found_decomp eid ⟨(""), (""), desc, ("")⟩ ds h
  refine ⟨t1, d, t2, hds, hid, ?_⟩
  simp [updateDashboard, hlook, hupd, applyUpdate]

/-- Witness for C2: updating the single stored record with a body holding only
a description clears the name and sets the description. -/
theorem updateDashboard_omitted_name_witness :
    ∃ t1 d t2,
      [(⟨("x"), ("Old"), ("od"), ("p")⟩ : Dashboard)] = t1 ++ d :: t2 ∧ d.id = ("x") ∧
      updateDashboard ("x") (some ⟨(""), (""), ("nd"), ("")⟩)
          [⟨("x"), ("Old"), ("od"), ("p")⟩] =
        (.ok { d with name := (""), description := ("nd") },
         t1 ++ { d with name := (""), description := ("nd") } :: t2) :=
  updateDashboard_omitted_name ("x") ("nd") [⟨("x"), ("Old"), ("od"), ("p")⟩]
    ⟨⟨("x"), ("Old"), ("od"), ("p")⟩, by simp, rfl⟩

/-- Counterexample to C2 as stated: updating a record named "Old" with a body
that omits the name (decoded as "") stores the empty name, so the stored name
is changed, contrary to the claim. -/
theorem update_omitted_name_clears :
    (updateDashboard ("x") (some ⟨(""), (""), ("nd"), ("")⟩)
        [⟨("x"), ("Old"), ("od"), ("p")⟩]).2 =
      [⟨("x"), (""), ("nd"), ("p")⟩] ∧
    (("") : String) ≠ ("Old") := by decide

/-- Claim C3 is a code bug: the comment on `generateExternalID` promises a
unique id, but the generator never checks for collisions, so two creates whose
random draws coincide (here: every draw is 0) produce two records with the
same id "aaaaaaaa"; the ids in the reachable state are not pairwise
distinct. -/
theorem duplicate_ids_reachable :
    ((createDashboard (some ⟨(""), ("B"), (""), ("p")⟩) (fun _ => 0)
        (createDashboard (some ⟨(""), ("A"), (""), ("p")⟩) (fun _ => 0) []).2).2).map
      Dashboard.id = [("aaaaaaaa"), ("aaaaaaaa")] ∧
    ¬ ((createDashboard (some ⟨(""), ("B"), (""), ("p")⟩) (fun _ => 0)
        (createDashboard (some ⟨(""), ("A"), (""), ("p")⟩) (fun _ => 0) []).2).2).Pairwise
      (fun x y => x.id ≠ y.id) := by
  decide

/-- Claim C4: starting from cursor 0 and repeatedly calling `listDashboards`
with each returned `next` until it is the zero value, with no mutation in
between, the concatenation of the returned pages is exactly the stored
collection, in order — every record present at the first call appears exactly
once.  `ds.length + 1` calls always suffice. -/
theorem paginate_enumerates_all (ds : List Dashboard) :
    collectPages (ds.length + 1) 0 ds = some ds := by
  have h := collectPages_eq (ds.length + 1) 0 ds (by omega)
  simpa using h

end DashStore
namespace DashStore

/-- Claim C5 (amended): for every store state and every valid create (decoded
body with non-empty project), the generated identifier is an 8-character
string over `[a-zA-Z0-9]`; and provided no already-stored record carries that
generated identifier, an immediate get with it returns the created record,
whose name, description and project equal the supplied ones.  Without the
freshness proviso the get can return an older record; see
`create_get_collision`. -/
theorem create_fresh_roundtrip (dash : Dashboard) (r : Fin 8 → Nat) (ds : List Dashboard)
    (hproj : dash.project ≠ (""))
    (hfresh : ∀ d ∈ ds, d.id ≠ generateExternalID r) :
    (generateExternalID r).length = 8 ∧
    (∀ c ∈ (generateExternalID r).data, isAlphanum c) ∧
    ∃ d', createDashboard (some dash) r ds = (.created d', ds ++ [d']) ∧
      d'.id = generateExternalID r ∧
      getDashboard d'.id (createDashboard (some dash) r ds).2 = .ok d' ∧
      d'.name = dash.name ∧ d'.description = dash.description ∧
      d'.project = dash.project := by
  refine ⟨generateExternalID_length r, generateExternalID_alphanum r, ?_⟩
  have hstate : createDashboard (some dash) r ds =
      (.created { dash with id := generateExternalID r },
       ds ++ [{ dash with id := generateExternalID r }]) := by
    simp [createDashboard, hproj]
  refine ⟨{ dash with id := generateExternalID r }, hstate, rfl, ?_, rfl, rfl, rfl⟩
  rw [hstate]
  show getDashboard (generateExternalID r) (ds ++ [{ dash with id := generateExternalID r }])
    = _
  rw [getDashboard, lookup_append_right ds _ _ hfresh]
  simp [lookupDashboard]

/-- Witness for C5: a concrete valid create into the empty store round-trips
through get. -/
theorem create_fresh_roundtrip_witness :
    (generateExternalID (fun _ => 0)).length = 8 ∧
    (∀ c ∈ (generateExternalID (fun _ => 0)).data, isAlphanum c) ∧
    ∃ d', createDashboard (some ⟨(""), ("n"), ("de"), ("p")⟩) (fun _ => 0) [] =
        (.created d', [] ++ [d']) ∧
      d'.id = generateExternalID (fun _ => 0) ∧
      getDashboard d'.id
          (createDashboard (some ⟨(""), ("n"), ("de"), ("p")⟩) (fun _ => 0) []).2 = .ok d' ∧
      d'.name = ("n") ∧ d'.description = ("de") ∧ d'.project = ("p") :=
  create_fresh_roundtrip ⟨(""), ("n"), ("de"), ("p")⟩ (fun _ => 0) []
    (by decide) (by simp)

/-- Counterexample to C5 as stated: when the store already holds a record with
id "aaaaaaaa" and the generator's draws produce the same id, the create
succeeds but the immediate get returns the older record, whose name "X"
differs from the supplied name "New". -/
theorem create_get_collision :
    (createDashboard (some ⟨(""), ("New"), ("nd"), ("q")⟩) (fun _ => 0)
        [⟨("aaaaaaaa"), ("X"), ("xd"), ("p")⟩]).1 =
      .created ⟨("aaaaaaaa"), ("New"), ("nd"), ("q")⟩ ∧
    getDashboard ("aaaaaaaa")
        (createDashboard (some ⟨(""), ("New"), ("nd"), ("q")⟩) (fun _ => 0)
          [⟨("aaaaaaaa"), ("X"), ("xd"), ("p")⟩]).2 =
      .ok ⟨("aaaaaaaa"), ("X"), ("xd"), ("p")⟩ ∧
    (("X") : String) ≠ ("New") := by
  decide

/-- Claim C6: for every collection state, list with no cursor (cursor 0)
returns the first `min 2 (length)` records (`take 2`) in order, with `next`
equal to 2 exactly when more than 2 records exist and the zero value
otherwise; the returned `next` is nonzero iff the collection holds more than
2 records.  In particular for three records `a`,`b`,`c` in order, the first
page is `[a, b]` with `next = 2` and the page at cursor 2 is `[c]` with no
further page. -/
theorem list_first_page (ds : List Dashboard) (a b c : Dashboard) :
    listDashboards 0 ds =
      some { dashboards := ds.take 2,
             next := if 2 < ds.length then 2 else 0 } ∧
    ((if 2 < ds.length then (2 : Int) else 0) ≠ 0 ↔ 2 < ds.length) ∧
    listDashboards 0 [a, b, c] = some { dashboards := [a, b], next := 2 } ∧
    listDashboards 2 [a, b, c] = some { dashboards := [c], next := 0 } := by
  refine ⟨?_, ?_, ?_, ?_⟩
  · have h := listDashboards_nat 0 ds
    norm_num at h
    exact h
  · split_ifs with hlen
    · simp [hlen]
    · simp [hlen]
  · have h := listDashboards_nat 0 [a, b, c]
    norm_num at h
    exact h
  · have h := listDashboards_nat 2 [a, b, c]
    norm_num at h
    exact h

end DashStore
namespace DashStore

/-- Claim C7: when the collection contains a record with the given
identifier, delete answers 204 and removes exactly the first matching record:
the collection decomposes as `t1 ++ d :: t2` with `d` the first match, the
new state is `t1 ++ t2` (all remaining records in their previous relative
order), and the length drops by exactly one. -/
theorem deleteDashboard_removes_one (eid : String) (ds : List Dashboard)
    (h : ∃ d ∈ ds, d.id = eid) :
    ∃ t1 d t2, ds = t1 ++ d :: t2 ∧ d.id = eid ∧ (∀ x ∈ t1, x.id ≠ eid) ∧
      deleteDashboard eid ds = (.noContent, t1 ++ t2) ∧
      (deleteDashboard eid ds).2.length + 1 = ds.length := by
  obtain ⟨t1, d, t2, hds, hid, hnot, hlook, hrem, -⟩ :=
    found_decomp eid ⟨(""), (""), (""), ("")⟩ ds h
  have hdel : deleteDashboard eid ds = (.noContent, t1 ++ t2) := by
    simp [deleteDashboard, hlook, hrem]
  refine ⟨t1, d, t2, hds, hid, hnot, hdel, ?_⟩
  rw [hdel, hds]
  simp [List.length_append]
  omega

/-- Witness for C7: deleting the only record of a one-record store empties
it. -/
theorem deleteDashboard_removes_one_witness :
    ∃ t1 d t2,
      [(⟨("x"), ("n"), ("de"), ("p")⟩ : Dashboard)] = t1 ++ d :: t2 ∧ d.id = ("x") ∧
      (∀ x ∈ t1, x.id ≠ ("x")) ∧
      deleteDashboard ("x") [⟨("x"), ("n"), ("de"), ("p")⟩] = (.noContent, t1 ++ t2) ∧
      (deleteDashboard ("x") [⟨("x"), ("n"), ("de"), ("p")⟩]).2.length + 1 =
        [(⟨("x"), ("n"), ("de"), ("p")⟩ : Dashboard)].length :=
  deleteDashboard_removes_one ("x") [⟨("x"), ("n"), ("de"), ("p")⟩]
    ⟨⟨("x"), ("n"), ("de"), ("p")⟩, by simp, rfl⟩

/-- Claim C8: a successful update rewrites only the first matching record:
the store decomposes as `t1 ++ d :: t2`, the new state is `t1 ++ d' :: t2`
with every other record untouched, and the rewritten record `d'` keeps the
old identifier and project while taking its name and description from the
request body. -/
theorem updateDashboard_frame (eid : String) (upd : Dashboard) (ds : List Dashboard)
    (h : ∃ d ∈ ds, d.id = eid) :
    ∃ t1 d t2 d', ds = t1 ++ d :: t2 ∧ d.id = eid ∧
      updateDashboard eid (some upd) ds = (.ok d', t1 ++ d' :: t2) ∧
      d'.id = d.id ∧ d'.project = d.project ∧
      d'.name = upd.name ∧ d'.description = upd.description := by
  obtain ⟨t1, d, t2, hds, hid, hnot, hlook, -, hupd⟩ := found_decomp eid upd ds h
  exact ⟨t1, d, t2, applyUpdate upd d, hds, hid,
    by simp [updateDashboard, hlook, hupd], rfl, rfl, rfl, rfl⟩

/-- Witness for C8: a concrete update of a one-record store keeps id and
project and rewrites name and description. -/
theorem updateDashboard_frame_witness :
    ∃ t1 d t2 d',
      [(⟨("x"), ("Old"), ("od"), ("p")⟩ : Dashboard)] = t1 ++ d :: t2 ∧ d.id = ("x") ∧
      updateDashboard ("x") (some ⟨("zz"), ("New"), ("nd"), ("q")⟩)
          [⟨("x"), ("Old"), ("od"), ("p")⟩] = (.ok d', t1 ++ d' :: t2) ∧
      d'.id = d.id ∧ d'.project = d.project ∧
      d'.name = ("New") ∧ d'.description = ("nd") :=
  updateDashboard_frame ("x") ⟨("zz"), ("New"), ("nd"), ("q")⟩
    [⟨("x"), ("Old"), ("od"), ("p")⟩]
    ⟨⟨("x"), ("Old"), ("od"), ("p")⟩, by simp, rfl⟩

/-- Claim C9: whenever create, update or delete answers a client error
(malformed body, empty required project field, or unknown identifier — the
400/404 outcomes), the stored collection after the call equals the collection
before it: no error path adds, removes or modifies a record. -/
theorem error_leaves_state (eid : String) (body : Option Dashboard) (r : Fin 8 → Nat)
    (ds : List Dashboard) :
    ((createDashboard body r ds).1.isClientError = true →
      (createDashboard body r ds).2 = ds) ∧
    ((updateDashboard eid body ds).1.isClientError = true →
      (updateDashboard eid body ds).2 = ds) ∧
    ((deleteDashboard eid ds).1.isClientError = true →
      (deleteDashboard eid ds).2 = ds) := by
  refine ⟨?_, ?_, ?_⟩
  · match body with
    | none => intro _; rfl
    | some dash =>
      by_cases hp : dash.project = ("")
      · intro _; simp [createDashboard, hp]
      · simp [createDashboard, hp, HandlerResult.isClientError]
  · match body with
    | none => intro _; rfl
    | some upd =>
      cases hl : lookupDashboard ds eid with
      | none => intro _; simp [updateDashboard, hl]
      | some d => simp [updateDashboard, hl, HandlerResult.isClientError]
  · cases hl : lookupDashboard ds eid with
    | none => intro _; simp [deleteDashboard, hl]
    | some d => simp [deleteDashboard, hl, HandlerResult.isClientError]

/-- Witness for C9: a malformed create body, a malformed update body and a
delete of an unknown id all leave the empty store empty. -/
theorem error_leaves_state_witness :
    (createDashboard none (fun _ => 0) []).2 = [] ∧
    (updateDashboard ("x") none []).2 = [] ∧
    (deleteDashboard ("x") []).2 = [] := by
  have h := error_leaves_state ("x") none (fun _ => 0) []
  exact ⟨h.1 (by decide), h.2.1 (by decide), h.2.2 (by decide)⟩

/-- Claim C10 (amended): the list handler is total for every non-negative
integer cursor — the page loop never reads outside the collection's bounds
(never returns the panic marker `none`).  For negative cursors, which
`strconv.Atoi` accepts, the first loop iteration indexes the slice at a
negative position and panics; see `list_negative_cursor_panics`. -/
theorem listDashboards_total_nonneg (c : Int) (ds : List Dashboard) (h : 0 ≤ c) :
    (listDashboards c ds).isSome = true := by
  have hc : c = ((c.toNat : Nat) : Int) := (Int.toNat_of_nonneg h).symm
  rw [hc, listDashboards_nat]
  rfl

/-- Witness for C10: cursor 5 on the empty collection yields a page
without any out-of-bounds access. -/
theorem listDashboards_total_nonneg_witness :
    (listDashboards 5 []).isSome = true :=
  listDashboards_total_nonneg 5 [] (by norm_num)

/-- Counterexample to C10 as stated: cursor `-1` (which the handler accepts,
since `strconv.Atoi` parses negative integers) makes the loop index the
backing slice at position `-1`, a Go runtime panic, modelled as `none` —
on the empty collection and on a one-record collection alike. -/
theorem list_negative_cursor_panics :
    listDashboards (-1) [] = none ∧ goIndex [] (-1) = none ∧
    listDashboards (-1) [⟨("a"), ("A"), ("d"), ("p")⟩] = none := by
  decide

end DashStore
